import Mathlib

/-!
Verification of the observability event pipeline
(saleor/webhook/observability): the escape-aware JSON text truncator
(utils.py, JsonTruncText), the byte-budget payload builders
(payloads.py), and the bounded event buffer with its capture entry
points (buffer.py).

Python strings are modeled as lists of Unicode scalar values
(List Char); byte counts are Nat; Python ints are Int where a value can
go negative (budget arithmetic), with Python floor division // rendered
as Int.fdiv.  Fallible code (raise ValueError and friends) is rendered
with Except.
-/

/-- Python str: a sequence of Unicode code points. -/
abbrev PyStr := List Char

/-- Membership test in json.encoder.ESCAPE_DCT: the dict maps the
backslash, the double quote and every code point below 0x20 to its
two-character short escape or a 6-byte uXXXX escape. -/
def inEscapeDct (c : Char) : Bool :=
  c = '\\' || c = '"' || decide (c.toNat < 0x20)

/-- Length of the replacement string stored in ESCAPE_DCT for a key of
the dict: 2 for the backslash, the quote and the five control
characters that have short escapes, 6 for every other control
character (rendered as a uXXXX escape). -/
def escapeDctLen (c : Char) : Nat :=
  if c = '\\' || c = '"' || c = '\x08' || c = '\x09' || c = '\x0a'
      || c = '\x0c' || c = '\x0d' then 2
  else 6

/-- Single-character match test of json.encoder.ESCAPE_ASCII, the regex
([\\"]|[^\ -~]): a backslash, a double quote, or any character outside
the printable ASCII range 0x20..0x7e. -/
def needsEscape (c : Char) : Bool :=
  c = '\\' || c = '"' || !(decide (0x20 ≤ c.toNat) && decide (c.toNat ≤ 0x7e))

/-- utils.py, dataclass JsonTruncText.  The InitVar fields added_bytes
and ensure_ascii are stored on the instance; only added_bytes matters
for byte accounting, so the model keeps text, truncated and
added_bytes. -/
structure JsonTruncText where
  text : PyStr
  truncated : Bool
  added_bytes : Nat
deriving Repr, DecidableEq

/-- utils.py line 74: byte_size = len(self.text) + self._added_bytes. -/
def JsonTruncText.byte_size (t : JsonTruncText) : Nat :=
  t.text.length + t.added_bytes

/-- utils.py line 78, JsonTruncText.json_char_len: length of
ESCAPE_DCT[char] when the char is a dict key; otherwise 6 (BMP) or 12
(astral) under ensure_ascii, else the raw UTF-8 encoding length. -/
def JsonTruncText.json_char_len (c : Char) (ensure_ascii : Bool) : Nat :=
  if inEscapeDct c then escapeDctLen c
  else if ensure_ascii then (if c.toNat < 0x10000 then 6 else 12)
  else c.utf8Size

/-- Number of bytes one character contributes to the JSON-escaped form
of a string under the given escaping mode: characters matched by
ESCAPE_ASCII contribute json_char_len, plain printable ASCII
contributes one byte. -/
def charJsonBytes (ensure_ascii : Bool) (c : Char) : Nat :=
  if needsEscape c then JsonTruncText.json_char_len c ensure_ascii else 1

/-- Exact number of bytes a string occupies once JSON-escaped under the
given mode (the reference count the spec compares byte_size to). -/
def escapedByteLen (ensure_ascii : Bool) (s : PyStr) : Nat :=
  (s.map (charJsonBytes ensure_ascii)).sum

/-- Loop of utils.py JsonTruncText.truncate (lines 94..112): iterate
over ESCAPE_ASCII matches of the already char-truncated string.  The
model walks the string character by character; pos is the index of the
next character, added the accumulated markup of the matches consumed
so far.  The returned text is the suffix of the final text from
position pos (callers prepend the characters they consumed). -/
def JsonTruncText.truncGo (ensure_ascii : Bool) (limit sInitLen : Nat) :
    PyStr → Nat → Nat → JsonTruncText
  | [], pos, added => ⟨[], decide (pos < sInitLen), added⟩
  | c :: cs, pos, added =>
    if needsEscape c then
      let markup := JsonTruncText.json_char_len c ensure_ascii - 1
      if limit < pos + 1 + (added + markup) then
        ⟨[], true, added⟩
      else if pos + 1 + (added + markup) = limit then
        ⟨[c], decide (pos + 1 < sInitLen), added + markup⟩
      else
        let r := JsonTruncText.truncGo ensure_ascii limit sInitLen cs
          (pos + 1) (added + markup)
        ⟨c :: r.text, r.truncated, r.added_bytes⟩
    else
      let r := JsonTruncText.truncGo ensure_ascii limit sInitLen cs
        (pos + 1) added
      ⟨c :: r.text, r.truncated, r.added_bytes⟩

/-- utils.py line 87, JsonTruncText.truncate: clamp the limit to at
least 0, pre-truncate the string to limit characters, then scan the
escapes accumulating added bytes. -/
def JsonTruncText.truncate (s : PyStr) (limit : Int) (ensure_ascii : Bool) :
    JsonTruncText :=
  let lim := limit.toNat
  JsonTruncText.truncGo ensure_ascii lim s.length (s.take lim) 0 0

lemma one_le_json_char_len (c : Char) (ea : Bool) :
    1 ≤ JsonTruncText.json_char_len c ea := by
  unfold JsonTruncText.json_char_len escapeDctLen
  split
  · split <;> omega
  · split
    · split <;> omega
    · exact c.utf8Size_pos

lemma charJsonBytes_pos (ea : Bool) (c : Char) : 1 ≤ charJsonBytes ea c := by
  unfold charJsonBytes
  split
  · exact one_le_json_char_len c ea
  · exact le_refl 1

lemma escapedByteLen_nil (ea : Bool) : escapedByteLen ea [] = 0 := rfl

lemma escapedByteLen_cons (ea : Bool) (c : Char) (cs : PyStr) :
    escapedByteLen ea (c :: cs) = charJsonBytes ea c + escapedByteLen ea cs := by
  simp [escapedByteLen]

lemma length_le_escapedByteLen (ea : Bool) (s : PyStr) :
    s.length ≤ escapedByteLen ea s := by
  induction s with
  | nil => simp [escapedByteLen]
  | cons c cs ih =>
    rw [escapedByteLen_cons]
    have := charJsonBytes_pos ea c
    simp only [List.length_cons]
    omega

/-- When the whole (already char-truncated) rest of the string fits in
the remaining byte budget, the truncation loop keeps it verbatim and
reports no truncation. -/
lemma truncGo_fits (ea : Bool) (limit sInitLen : Nat) :
    ∀ (rest : PyStr) (pos added : Nat),
      pos + added + escapedByteLen ea rest ≤ limit →
      pos + rest.length = sInitLen →
      (JsonTruncText.truncGo ea limit sInitLen rest pos added).text = rest ∧
      (JsonTruncText.truncGo ea limit sInitLen rest pos added).truncated = false
  | [], pos, added, _, hlen => by
    unfold JsonTruncText.truncGo
    simp only [List.length_nil, Nat.add_zero] at hlen
    simp [hlen]
  | c :: cs, pos, added, hfit, hlen => by
    rw [escapedByteLen_cons] at hfit
    simp only [List.length_cons] at hlen
    unfold JsonTruncText.truncGo
    by_cases hc : needsEscape c
    · have hjcl : 1 ≤ JsonTruncText.json_char_len c ea := one_le_json_char_len c ea
      have hcb : charJsonBytes ea c = JsonTruncText.json_char_len c ea := by
        unfold charJsonBytes; simp [hc]
      rw [hcb] at hfit
      simp only [hc, if_true]
      have hnotgt : ¬ (limit < pos + 1 + (added + (JsonTruncText.json_char_len c ea - 1))) := by
        omega
      rw [if_neg hnotgt]
      by_cases heq : pos + 1 + (added + (JsonTruncText.json_char_len c ea - 1)) = limit
      · rw [if_pos heq]
        have hcs0 : escapedByteLen ea cs = 0 := by omega
        have hlcs : cs.length = 0 := by
          have := length_le_escapedByteLen ea cs
          omega
        have hcsnil : cs = [] := List.length_eq_zero.mp hlcs
        subst hcsnil
        simp only [List.length_nil] at hlen
        constructor
        · rfl
        · simp [hlen]
      · rw [if_neg heq]
        have ih := truncGo_fits ea limit sInitLen cs (pos + 1)
          (added + (JsonTruncText.json_char_len c ea - 1)) (by omega) (by omega)
        constructor
        · simp [ih.1]
        · simp [ih.2]
    · have hcb : charJsonBytes ea c = 1 := by
        unfold charJsonBytes; simp [hc]
      rw [hcb] at hfit
      simp only [hc]
      rw [if_neg (by simp [hc])]
      have ih := truncGo_fits ea limit sInitLen cs (pos + 1) added
        (by omega) (by omega)
      constructor
      · simp [ih.1]
      · simp [ih.2]

/-- The loop reports truncated exactly when the text it keeps is
shorter than the original (pre-slice) string. -/
lemma truncGo_truncated_iff (ea : Bool) (limit sInitLen : Nat) :
    ∀ (rest : PyStr) (pos added : Nat),
      pos + rest.length ≤ sInitLen →
      (JsonTruncText.truncGo ea limit sInitLen rest pos added).truncated =
        decide (pos + (JsonTruncText.truncGo ea limit sInitLen rest pos added).text.length
          < sInitLen)
  | [], pos, added, _ => by
    unfold JsonTruncText.truncGo
    simp
  | c :: cs, pos, added, hlen => by
    simp only [List.length_cons] at hlen
    unfold JsonTruncText.truncGo
    by_cases hc : needsEscape c
    · simp only [hc, if_true]
      by_cases hgt : limit < pos + 1 + (added + (JsonTruncText.json_char_len c ea - 1))
      · rw [if_pos hgt]
        have : pos < sInitLen := by omega
        simp [this]
      · rw [if_neg hgt]
        by_cases heq : pos + 1 + (added + (JsonTruncText.json_char_len c ea - 1)) = limit
        · rw [if_pos heq]
          simp
        · rw [if_neg heq]
          have ih := truncGo_truncated_iff ea limit sInitLen cs (pos + 1)
            (added + (JsonTruncText.json_char_len c ea - 1)) (by omega)
          simp only [ih, List.length_cons, decide_eq_decide]
          omega
    · simp only [hc]
      rw [if_neg (by simp [hc])]
      have ih := truncGo_truncated_iff ea limit sInitLen cs (pos + 1) added (by omega)
      simp only [ih, List.length_cons, decide_eq_decide]
      omega

/-- C1: the claim asserts that for every string, limit and escaping
mode, truncate returns a result with byte_size at most the limit and
byte_size equal to the exact JSON-escaped byte count of the returned
text.  The code violates the first half: for s equal to a newline
followed by two letters and limit 3, the newline escape adds a byte
that is checked only at escape positions, the two trailing plain
characters are never re-checked, and the call returns the whole string
with byte_size 4 greater than the limit 3 (its JSON-escaped form is
indeed 4 bytes, so the exactness half does hold at this input). -/
theorem truncate_byte_size_exceeds_limit :
    (JsonTruncText.truncate "\naa".toList 3 true).byte_size = 4 ∧
    (JsonTruncText.truncate "\naa".toList 3 true).truncated = false ∧
    (JsonTruncText.truncate "\naa".toList 3 true).text = "\naa".toList ∧
    escapedByteLen true "\naa".toList = 4 ∧ 3 < 4 := by
  refine ⟨rfl, rfl, rfl, rfl, by omega⟩

/-- C5: if the full JSON-escaped byte length of s under the chosen mode
is at most L, truncate acts as the identity: the returned text equals s
and the truncated flag is false. -/
theorem truncate_identity_when_fits (ea : Bool) (s : PyStr) (L : Int)
    (h : (escapedByteLen ea s : Int) ≤ L) :
    (JsonTruncText.truncate s L ea).text = s ∧
    (JsonTruncText.truncate s L ea).truncated = false := by
  have hlen : s.length ≤ escapedByteLen ea s := length_le_escapedByteLen ea s
  have hLn : escapedByteLen ea s ≤ L.toNat := by omega
  have htake : s.take L.toNat = s := List.take_of_length_le (by omega)
  show (JsonTruncText.truncGo ea L.toNat s.length (s.take L.toNat) 0 0).text = s ∧
    (JsonTruncText.truncGo ea L.toNat s.length (s.take L.toNat) 0 0).truncated = false
  rw [htake]
  exact truncGo_fits ea L.toNat s.length s 0 0 (by omega) (by omega)

/-- Witness for C5 at a concrete input: the escaped length of abcde is
5, and truncate with limit 5 returns it unchanged. -/
theorem truncate_identity_when_fits_witness :
    (escapedByteLen true "abcde".toList : Int) ≤ 5 ∧
    (JsonTruncText.truncate "abcde".toList 5 true).text = "abcde".toList ∧
    (JsonTruncText.truncate "abcde".toList 5 true).truncated = false :=
  ⟨by decide,
   (truncate_identity_when_fits true "abcde".toList 5 (by decide)).1,
   (truncate_identity_when_fits true "abcde".toList 5 (by decide)).2⟩

/-- C6: the truncated flag is true exactly when the returned text is
shorter than the input, including exact-landing cases; in particular
truncating the string ab-x1f-c to 8 bytes with ensure_ascii false keeps
ab-x1f with byte size 8 and the truncated flag set. -/
theorem truncate_truncated_iff_shorter :
    (∀ (ea : Bool) (s : PyStr) (L : Int),
        ((JsonTruncText.truncate s L ea).truncated = true ↔
          (JsonTruncText.truncate s L ea).text.length < s.length)) ∧
    (JsonTruncText.truncate "ab\x1fc".toList 8 false).text = "ab\x1f".toList ∧
    (JsonTruncText.truncate "ab\x1fc".toList 8 false).byte_size = 8 ∧
    (JsonTruncText.truncate "ab\x1fc".toList 8 false).truncated = true := by
  refine ⟨?_, rfl, rfl, rfl⟩
  intro ea s L
  unfold JsonTruncText.truncate
  have h := truncGo_truncated_iff ea L.toNat s.length (s.take L.toNat) 0 0
    (by have := List.length_take L.toNat s; omega)
  rw [h]
  simp

/-!
Payload builders (payloads.py).  json.dumps output lengths are modeled
arithmetically: dumps uses the default separators (comma-space and
colon-space), ensure_ascii true, and CustomJsonEncoder renders a
JsonTruncText as a dict with keys text and truncated.  A serialized
JsonTruncText therefore occupies 27 fixed bytes (braces, the two keys,
separators, quotes) plus the escaped byte length of its text plus 4
(true) or 5 (false) for the flag; an absent optional value serializes
as null, 4 bytes.  The fixed envelopes built from the request, the
response and the attempt metadata enter the model as their serialized
length only, since the code uses them solely through
len(json.dumps(payload)) before and after the variable parts are
re-embedded.
-/

/-- Operation kind extracted by graphql.get_operation_ast from the
parsed query document. -/
inductive OpType
  | query
  | mutation
  | subscription
deriving Repr, DecidableEq

/-- The string value that an OpType serializes to. -/
def OpType.str : OpType → PyStr
  | .query => "query".toList
  | .mutation => "mutation".toList
  | .subscription => "subscription".toList

/-- GraphQLDocument: the raw document string, plus the outcome of
graphql.get_operation_ast(document_ast, name) for the name of the
enclosing operation, abstracted to the operation kind it reports (none
when get_operation_ast finds no definition). -/
structure GraphQLDocument where
  document_string : PyStr
  operationAst : Option OpType
deriving Repr, DecidableEq

/-- observability/__init__.py, dataclass GQLOperationResult.  The
variables field never enters the payloads, so it is omitted.  The
result field carries json_dumps(result) for a truthy (nonempty) result
dict; none stands for an absent or empty dict, which the code skips
alike (if operation.result is false for both). -/
structure GQLOperationResult where
  name : Option PyStr
  query : Option GraphQLDocument
  result : Option PyStr
deriving Repr, DecidableEq

/-- Python truthiness of an optional string: None and the empty string
are falsy. -/
def truthyStr : Option PyStr → Bool
  | none => false
  | some s => !s.isEmpty

/-- payloads.py GQLOperationPayload (TypedDict): key order name,
operation_type, query, result. -/
structure GQLOperationPayload where
  name : Option JsonTruncText
  operation_type : Option OpType
  query : Option JsonTruncText
  result : Option JsonTruncText
deriving Repr, DecidableEq

/-- payloads.py line 58: TRUNC_PLACEHOLDER = JsonTruncText(truncated=False). -/
def TRUNC_PLACEHOLDER : JsonTruncText := ⟨[], false, 0⟩

/-- Serialized length of a JsonTruncText under CustomJsonEncoder:
27 scaffold bytes plus the escaped text plus the flag literal. -/
def truncTextDumpLen (t : JsonTruncText) : Nat :=
  27 + escapedByteLen true t.text + (if t.truncated then 4 else 5)

/-- Serialized length of an Optional[JsonTruncText] value. -/
def optTruncDumpLen : Option JsonTruncText → Nat
  | none => 4
  | some t => truncTextDumpLen t

/-- Serialized length of an Optional[str] operation type value. -/
def optOpTypeDumpLen : Option OpType → Nat
  | none => 4
  | some t => 2 + escapedByteLen true t.str

/-- Serialized length of one GQLOperationPayload dict: 53 scaffold
bytes (braces, four keys, separators) plus the four values. -/
def opDumpLen (p : GQLOperationPayload) : Nat :=
  53 + optTruncDumpLen p.name + optOpTypeDumpLen p.operation_type
    + optTruncDumpLen p.query + optTruncDumpLen p.result

/-- payloads.py line 62: the placeholder operation payload (all three
text fields TRUNC_PLACEHOLDER, operation_type subscription). -/
def GQL_OPERATION_PLACEHOLDER : GQLOperationPayload :=
  ⟨some TRUNC_PLACEHOLDER, some .subscription, some TRUNC_PLACEHOLDER,
    some TRUNC_PLACEHOLDER⟩

/-- payloads.py line 68: length of json.dumps(GQL_OPERATION_PLACEHOLDER). -/
def GQL_OPERATION_PLACEHOLDER_SIZE : Nat := opDumpLen GQL_OPERATION_PLACEHOLDER

/-- Name step of serialize_gql_operation_result (lines 89..91): when
the operation name is truthy, truncate it to a third of the remaining
budget and subtract what the truncation used. -/
def nameStep (operation : GQLOperationResult) (bl : Int) :
    Option JsonTruncText × Int :=
  if truthyStr operation.name then
    let t := JsonTruncText.truncate (operation.name.getD []) (bl.fdiv 3) true
    (some t, bl - t.byte_size)
  else (none, bl)

/-- Query step (lines 92..100): truncate the document string to half
the remaining budget and extract the operation type from the parsed
document. -/
def queryStep (operation : GQLOperationResult) (bl : Int) :
    (Option JsonTruncText × Option OpType) × Int :=
  match operation.query with
  | some doc =>
    let t := JsonTruncText.truncate doc.document_string (bl.fdiv 2) true
    ((some t, doc.operationAst), bl - t.byte_size)
  | none => ((none, none), bl)

/-- Result step (lines 101..103): truncate the serialized result to the
whole remaining budget. -/
def resultStep (operation : GQLOperationResult) (bl : Int) :
    Option JsonTruncText × Int :=
  match operation.result with
  | some r =>
    let t := JsonTruncText.truncate r bl true
    (some t, bl - t.byte_size)
  | none => (none, bl)

/-- payloads.py line 79, serialize_gql_operation_result: subtract the
placeholder size upfront, raise ValueError when that alone exceeds the
budget, then run the three field steps and return the payload together
with the unused budget clamped to at least 0. -/
def serialize_gql_operation_result (operation : GQLOperationResult)
    (bytes_limit : Int) : Except Unit (GQLOperationPayload × Int) :=
  let bl0 := bytes_limit - (GQL_OPERATION_PLACEHOLDER_SIZE : Int)
  if bl0 < 0 then .error () else
  let ns := nameStep operation bl0
  let qs := queryStep operation ns.2
  let rs := resultStep operation qs.2
  .ok (⟨ns.1, qs.1.2, qs.1.1, rs.1⟩, max 0 rs.2)

/-- Loop of serialize_gql_operation_results (lines 119..123): the i-th
record is granted the remaining budget floor-divided by the number of
records left; whatever it reports unused flows back for the records
after it. -/
def serializeOpsGo : List GQLOperationResult → Int →
    Except Unit (List GQLOperationPayload)
  | [], _ => .ok []
  | operation :: rest, bytes_limit =>
    let payload_limit := bytes_limit.fdiv (rest.length + 1)
    match serialize_gql_operation_result operation payload_limit with
    | .error e => .error e
    | .ok (payload, left_bytes) =>
      match serializeOpsGo rest (bytes_limit - (payload_limit - left_bytes)) with
      | .error e => .error e
      | .ok ps => .ok (payload :: ps)

/-- payloads.py line 113, serialize_gql_operation_results: raise
ValueError upfront when the budget cannot even cover one placeholder
per record, then run the sequential allocation loop. -/
def serialize_gql_operation_results (operations : List GQLOperationResult)
    (bytes_limit : Int) : Except Unit (List GQLOperationPayload) :=
  if bytes_limit - (operations.length : Int) * GQL_OPERATION_PLACEHOLDER_SIZE < 0
  then .error ()
  else serializeOpsGo operations bytes_limit

/-- Serialized length of the operations list value: brackets are
already counted in the envelope (the base dump holds an empty list), so
the delta is the summed payload dumps plus a comma-space separator
between consecutive items. -/
def opsListDumpLen (ps : List GQLOperationPayload) : Nat :=
  (ps.map opDumpLen).sum + 2 * (ps.length - 1)

/-- payloads.py line 127, generate_api_call_payload.  The envelope
(request metadata, response metadata, optional app identity, operation
count, empty operations list) enters as base_dump_len, the length of
json_dumps of the payload before the operations are filled in.  The
code raises ValueError when the envelope alone exceeds bytes_limit;
when the operations allocator raises, the error is swallowed and the
payload is emitted with the operations list still empty.  The model
returns the length of the final dump. -/
def generate_api_call_payload (base_dump_len : Nat)
    (gql_operations : List GQLOperationResult) (bytes_limit : Int) :
    Except Unit Nat :=
  let remaining_bytes := bytes_limit - (base_dump_len : Int)
  if remaining_bytes < 0 then .error () else
  match serialize_gql_operation_results gql_operations remaining_bytes with
  | .error _ => .ok base_dump_len
  | .ok ps => .ok (base_dump_len + opsListDumpLen ps)

/-- payloads.py line 177,
generate_truncated_event_delivery_attempt_payload.  The envelope
(attempt metadata, headers, delivery and webhook identity, content
lengths, with both body fields holding TRUNC_PLACEHOLDER) enters as
initial_dump_len.  payload is the delivery payload body when present
(None otherwise, in which case only the response body placeholder is
replaced).  The code raises ValueError when the envelope alone exceeds
bytes_limit; otherwise the response body gets half the remaining
budget and the delivery payload whatever the response body left.  The
model returns the length of the final dump (an Int: replacing the
5-byte false placeholder flag by true can shrink the dump). -/
def generate_truncated_event_delivery_attempt_payload (initial_dump_len : Nat)
    (payload : Option PyStr) (response_body : PyStr) (bytes_limit : Int) :
    Except Unit Int :=
  let remaining_bytes := bytes_limit - (initial_dump_len : Int)
  if remaining_bytes < 0 then .error () else
  let rb := JsonTruncText.truncate response_body (remaining_bytes.fdiv 2) true
  let respDelta : Int :=
    (truncTextDumpLen rb : Int) - (truncTextDumpLen TRUNC_PLACEHOLDER : Int)
  let payDelta : Int :=
    match payload with
    | none => 0
    | some p =>
      let pb := JsonTruncText.truncate p (remaining_bytes - rb.byte_size) true
      (truncTextDumpLen pb : Int) - (truncTextDumpLen TRUNC_PLACEHOLDER : Int)
  .ok ((initial_dump_len : Int) + respDelta + payDelta)

/-- Budget actually consumed by one record at a given limit: the
granted limit minus what serialize_gql_operation_result reports back
as unused. -/
def opConsumed (operation : GQLOperationResult) (payload_limit : Int) : Int :=
  match serialize_gql_operation_result operation payload_limit with
  | .ok (_, left) => payload_limit - left
  | .error _ => payload_limit

/-- Remaining pool budget just before the i-th record (0-based) is
processed by the allocation loop. -/
def remainingBefore : Int → List GQLOperationResult → Nat → Int
  | B, _, 0 => B
  | B, [], _ + 1 => B
  | B, operation :: rest, i + 1 =>
    remainingBefore (B - opConsumed operation (B.fdiv (rest.length + 1))) rest i

/-- Budget granted to the i-th record (0-based): the pool remaining
before it, floor-divided by the number of records left. -/
def grantedBudget (B : Int) (operations : List GQLOperationResult) (i : Nat) : Int :=
  (remainingBefore B operations i).fdiv ((operations.length - i : Nat))

lemma nameStep_le (operation : GQLOperationResult) (bl : Int) :
    (nameStep operation bl).2 ≤ bl := by
  unfold nameStep
  split
  · simp only
    omega
  · exact le_refl bl

lemma queryStep_le (operation : GQLOperationResult) (bl : Int) :
    (queryStep operation bl).2 ≤ bl := by
  unfold queryStep
  split
  · simp only
    omega
  · exact le_refl bl

lemma resultStep_le (operation : GQLOperationResult) (bl : Int) :
    (resultStep operation bl).2 ≤ bl := by
  unfold resultStep
  split
  · simp only
    omega
  · exact le_refl bl

/-- When a record is granted at least the placeholder size, its
serialization succeeds and reports back an unused budget between 0 and
the granted limit minus the placeholder size. -/
lemma serialize_op_ok (operation : GQLOperationResult) (pl : Int)
    (h : (GQL_OPERATION_PLACEHOLDER_SIZE : Int) ≤ pl) :
    ∃ p left, serialize_gql_operation_result operation pl = .ok (p, left) ∧
      0 ≤ left ∧ left ≤ pl - GQL_OPERATION_PLACEHOLDER_SIZE := by
  unfold serialize_gql_operation_result
  rw [if_neg (by omega)]
  refine ⟨_, _, rfl, le_max_left 0 _, ?_⟩
  have h1 := nameStep_le operation (pl - (GQL_OPERATION_PLACEHOLDER_SIZE : Int))
  have h2 := queryStep_le operation
    (nameStep operation (pl - (GQL_OPERATION_PLACEHOLDER_SIZE : Int))).2
  have h3 := resultStep_le operation
    (queryStep operation
      (nameStep operation (pl - (GQL_OPERATION_PLACEHOLDER_SIZE : Int))).2).2
  omega

lemma remainingBefore_cons_succ (B : Int) (operation : GQLOperationResult)
    (rest : List GQLOperationResult) (i : Nat) (p : GQLOperationPayload)
    (left : Int)
    (hok : serialize_gql_operation_result operation (B.fdiv (rest.length + 1)) =
      .ok (p, left)) :
    remainingBefore B (operation :: rest) (i + 1) =
      remainingBefore (B - (B.fdiv (rest.length + 1) - left)) rest i := by
  simp [remainingBefore, opConsumed, hok]

lemma grantedBudget_cons_succ (B : Int) (operation : GQLOperationResult)
    (rest : List GQLOperationResult) (i : Nat) (p : GQLOperationPayload)
    (left : Int)
    (hok : serialize_gql_operation_result operation (B.fdiv (rest.length + 1)) =
      .ok (p, left)) :
    grantedBudget B (operation :: rest) (i + 1) =
      grantedBudget (B - (B.fdiv (rest.length + 1) - left)) rest i := by
  unfold grantedBudget
  rw [remainingBefore_cons_succ B operation rest i p left hok]
  congr 1
  simp only [List.length_cons]
  omega

/-- Core allocation invariant: once the pool covers one placeholder per
record, the loop succeeds, produces one payload per record in order,
grants the i-th record its floor share of the pool remaining before
it, and keeps the pool ahead of the placeholder cost of the records
still to process. -/
lemma serializeOpsGo_spec :
    ∀ (ops : List GQLOperationResult) (B : Int),
      (ops.length : Int) * GQL_OPERATION_PLACEHOLDER_SIZE ≤ B →
      ∃ ps, serializeOpsGo ops B = .ok ps ∧ ps.length = ops.length ∧
        (∀ (i : Nat) (hi : i < ops.length) (hp : i < ps.length),
          ∃ left, serialize_gql_operation_result (ops.get ⟨i, hi⟩)
            (grantedBudget B ops i) = .ok (ps.get ⟨i, hp⟩, left)) ∧
        (∀ i, i < ops.length →
          ((ops.length - i : Nat) : Int) * GQL_OPERATION_PLACEHOLDER_SIZE ≤
            remainingBefore B ops i)
  | [], B, _ => by
    refine ⟨[], rfl, rfl, ?_, ?_⟩
    · intro i hi
      exact absurd hi (by simp)
    · intro i hi
      exact absurd hi (by simp)
  | operation :: rest, B, h => by
    have hn : (0 : Int) < (rest.length : Int) + 1 := by positivity
    have hfd : B.fdiv ((rest.length : Int) + 1) = B / ((rest.length : Int) + 1) :=
      Int.fdiv_eq_ediv B (by omega)
    have hcast : ((operation :: rest).length : Int) = (rest.length : Int) + 1 := by
      simp
    rw [hcast] at h
    have hple : (GQL_OPERATION_PLACEHOLDER_SIZE : Int) ≤
        B.fdiv ((rest.length : Int) + 1) := by
      rw [hfd]
      exact (Int.le_ediv_iff_mul_le hn).mpr (by linarith)
    obtain ⟨p, left, hok, hl0, hlle⟩ :=
      serialize_op_ok operation (B.fdiv ((rest.length : Int) + 1)) hple
    have hdm := Int.ediv_add_emod B ((rest.length : Int) + 1)
    have hmod : (0 : Int) ≤ B % ((rest.length : Int) + 1) :=
      Int.emod_nonneg B (by omega)
    have hkey : (rest.length : Int) * GQL_OPERATION_PLACEHOLDER_SIZE ≤
        (rest.length : Int) * (B / ((rest.length : Int) + 1)) :=
      mul_le_mul_of_nonneg_left (by rw [← hfd]; exact hple)
        (Int.natCast_nonneg rest.length)
    have hB2 : (rest.length : Int) * GQL_OPERATION_PLACEHOLDER_SIZE ≤
        B - (B.fdiv ((rest.length : Int) + 1) - left) := by
      rw [hfd]
      nlinarith [hdm, hmod, hkey, hl0]
    obtain ⟨ps2, hgo2, hlen2, helem2, hinv2⟩ :=
      serializeOpsGo_spec rest (B - (B.fdiv ((rest.length : Int) + 1) - left)) hB2
    refine ⟨p :: ps2, ?_, by simp [hlen2], ?_, ?_⟩
    · unfold serializeOpsGo
      simp only [hok, hgo2]
    · intro i hi hp
      match i with
      | 0 =>
        refine ⟨left, ?_⟩
        have hgb : grantedBudget B (operation :: rest) 0 =
            B.fdiv ((rest.length : Int) + 1) := by
          unfold grantedBudget remainingBefore
          congr 1
        rw [hgb]
        exact hok
      | i + 1 =>
        rw [grantedBudget_cons_succ B operation rest i p left hok]
        simp only [List.get_cons_succ]
        exact helem2 i (by simpa using hi) (by simp at hp; omega)
    · intro i hi
      match i with
      | 0 =>
        unfold remainingBefore
        simp only [List.length_cons, Nat.sub_zero]
        push_cast
        linarith
      | i + 1 =>
        rw [remainingBefore_cons_succ B operation rest i p left hok]
        rw [show ((operation :: rest).length - (i + 1) : Nat) = (rest.length - i : Nat) by
          simp only [List.length_cons]; omega]
        exact hinv2 i (by simpa using hi)

/-- C3: serialize_gql_operation_results raises exactly when the budget
is below length-times-placeholder-size (and then before producing any
partial result); otherwise it returns one payload per record, in the
original order, the i-th built by serialize_gql_operation_result under
a budget of the remaining pool floor-divided by the records left, with
unused bytes flowing back to the pool. -/
theorem serialize_results_sequential_allocation
    (operations : List GQLOperationResult) (B : Int) :
    (serialize_gql_operation_results operations B = .error () ↔
      B < (operations.length : Int) * GQL_OPERATION_PLACEHOLDER_SIZE) ∧
    (∀ ps, serialize_gql_operation_results operations B = .ok ps →
      ps.length = operations.length ∧
      ∀ (i : Nat) (hi : i < operations.length) (hp : i < ps.length),
        ∃ left, serialize_gql_operation_result (operations.get ⟨i, hi⟩)
          (grantedBudget B operations i) = .ok (ps.get ⟨i, hp⟩, left)) := by
  constructor
  · constructor
    · intro herr
      by_contra hlt
      push_neg at hlt
      obtain ⟨ps, hok, _, _, _⟩ := serializeOpsGo_spec operations B hlt
      unfold serialize_gql_operation_results at herr
      rw [if_neg (by omega), hok] at herr
      exact Except.noConfusion herr
    · intro hlt
      unfold serialize_gql_operation_results
      rw [if_pos (by omega)]
  · intro ps hok
    unfold serialize_gql_operation_results at hok
    by_cases hc : B - (operations.length : Int) * GQL_OPERATION_PLACEHOLDER_SIZE < 0
    · rw [if_pos hc] at hok
      exact Except.noConfusion hok
    · rw [if_neg hc] at hok
      obtain ⟨ps2, hok2, hlen, helem, _⟩ := serializeOpsGo_spec operations B (by omega)
      rw [hok2] at hok
      injection hok with hpe
      subst hpe
      exact ⟨hlen, helem⟩

/-- Witness for C3 at concrete inputs: with one (all-absent) operation
record, a budget of 150 is below the 163-byte placeholder and the
allocator raises; a budget of 163 succeeds with exactly one payload. -/
theorem serialize_results_sequential_allocation_witness :
    serialize_gql_operation_results [⟨none, none, none⟩] 150 = .error () ∧
    ([(⟨none, none, none, none⟩ : GQLOperationPayload)]).length =
      ([(⟨none, none, none⟩ : GQLOperationResult)]).length :=
  ⟨(serialize_results_sequential_allocation [⟨none, none, none⟩] 150).1.mpr
      (by decide),
   ((serialize_results_sequential_allocation [⟨none, none, none⟩] 163).2
      [⟨none, none, none, none⟩] rfl).1⟩

/-- C10: once the upfront check passes (budget at least
length-times-placeholder-size), the loop keeps the remaining pool at or
above records-left-times-placeholder-size before each record, so every
per-record call receives a limit of at least the placeholder size,
the internal allocation-error branch of serialize_gql_operation_result
is unreachable, and the whole call returns without raising. -/
theorem serialize_results_budget_invariant
    (operations : List GQLOperationResult) (B : Int)
    (h : (operations.length : Int) * GQL_OPERATION_PLACEHOLDER_SIZE ≤ B) :
    (serialize_gql_operation_results operations B).isOk = true ∧
    (∀ i, i < operations.length →
      ((operations.length - i : Nat) : Int) * GQL_OPERATION_PLACEHOLDER_SIZE ≤
        remainingBefore B operations i) ∧
    (∀ i, i < operations.length →
      (GQL_OPERATION_PLACEHOLDER_SIZE : Int) ≤ grantedBudget B operations i) ∧
    (∀ (i : Nat) (hi : i < operations.length),
      (serialize_gql_operation_result (operations.get ⟨i, hi⟩)
        (grantedBudget B operations i)).isOk = true) := by
  obtain ⟨ps, hok, hlen, helem, hinv⟩ := serializeOpsGo_spec operations B h
  have hgb : ∀ i, i < operations.length →
      (GQL_OPERATION_PLACEHOLDER_SIZE : Int) ≤ grantedBudget B operations i := by
    intro i hi
    have hR := hinv i hi
    have hd : (0 : Int) < ((operations.length - i : Nat) : Int) := by omega
    unfold grantedBudget
    rw [Int.fdiv_eq_ediv _ (by omega)]
    exact (Int.le_ediv_iff_mul_le hd).mpr (by linarith)
  refine ⟨?_, hinv, hgb, ?_⟩
  · unfold serialize_gql_operation_results
    rw [if_neg (by omega), hok]
    rfl
  · intro i hi
    obtain ⟨left, hel⟩ := helem i hi (by omega)
    rw [hel]
    rfl

/-- Witness for C10 at a concrete input: one all-absent record with
budget exactly the placeholder size succeeds and the single record is
granted the full 163 bytes, at least the placeholder size. -/
theorem serialize_results_budget_invariant_witness :
    (serialize_gql_operation_results [⟨none, none, none⟩] 163).isOk = true ∧
    (GQL_OPERATION_PLACEHOLDER_SIZE : Int) ≤
      grantedBudget 163 [⟨none, none, none⟩] 0 :=
  ⟨(serialize_results_budget_invariant [⟨none, none, none⟩] 163
      (by decide)).1,
   (serialize_results_budget_invariant [⟨none, none, none⟩] 163
      (by decide)).2.2.1 0 (by decide)⟩

/-- C2: the claim asserts every normally returned payload serializes to
at most bytes_limit bytes.  The code violates this: with a 500-byte
envelope, bytes_limit 510 (10 bytes of budget), an empty response body
and a delivery payload of four newlines followed by seven letters, the
delivery payload body is truncated to a text whose escaped form is 14
bytes although its granted budget was 10 (the truncator bug of C1), and
the rebuilt document serializes to 513 bytes, exceeding the limit by 3
(the same holds for every envelope length in place of 500).  The other
half of the claim does hold: a build whose envelope alone exceeds the
limit raises ValueError, instanced here for the api-call builder and
proved in general in builders_failure_asymmetry. -/
theorem delivery_payload_exceeds_bytes_limit :
    generate_truncated_event_delivery_attempt_payload 500
      (some "\n\n\n\naaaaaaa".toList) [] 510 = .ok 513 ∧ (510 : Int) < 513 ∧
    generate_api_call_payload 500 [] 499 = .error () :=
  ⟨rfl, by norm_num, rfl⟩

/-- C4: the two builders fail asymmetrically.  When the operations
allocator raises, generate_api_call_payload swallows the error and
emits the payload with the operations list still empty (final length
equal to the envelope length); when the envelope alone exceeds the
limit, generate_truncated_event_delivery_attempt_payload raises
ValueError to its caller. -/
theorem builders_failure_asymmetry :
    (∀ (E : Nat) (ops : List GQLOperationResult) (B : Int),
        (E : Int) ≤ B →
        serialize_gql_operation_results ops (B - (E : Int)) = .error () →
        generate_api_call_payload E ops B = .ok E) ∧
    (∀ (E : Nat) (payload : Option PyStr) (response_body : PyStr) (B : Int),
        B < (E : Int) →
        generate_truncated_event_delivery_attempt_payload E payload response_body B =
          .error ()) := by
  constructor
  · intro E ops B hE herr
    unfold generate_api_call_payload
    rw [if_neg (by omega)]
    simp only [herr]
  · intro E payload response_body B hB
    unfold generate_truncated_event_delivery_attempt_payload
    rw [if_pos (by omega)]

/-- Witness for C4 at concrete inputs: with a zero-length envelope,
limit 0 and one record, the allocator raises yet the api-call builder
returns the bare envelope; a delivery-attempt build whose envelope is 1
byte with limit 0 raises. -/
theorem builders_failure_asymmetry_witness :
    generate_api_call_payload 0 [⟨none, none, none⟩] 0 = .ok 0 ∧
    generate_truncated_event_delivery_attempt_payload 1 none [] 0 = .error () :=
  ⟨builders_failure_asymmetry.1 0 [⟨none, none, none⟩] 0 (by norm_num) rfl,
   builders_failure_asymmetry.2 1 none [] 0 (by norm_num)⟩

/-!
Bounded event buffer and capture entry points (buffer.py).  The kombu
broker queue is durable external state: it is modeled as a message
list plus a flag recording whether the queue has been declared on the
broker (kombu queue_declare in passive mode raises ChannelError for a
missing queue).  The buffer object itself carries the event type and
the batch and max_length configuration (clamped to at least 0 in the
constructor).
-/

/-- State of one broker queue. -/
structure BrokerQueue where
  declared : Bool
  messages : List PyStr
deriving Repr, DecidableEq

/-- buffer.py line 41, ObservabilityBuffer configuration. -/
structure ObservabilityBuffer where
  event_type : PyStr
  batch : Nat
  max_length : Nat
deriving Repr, DecidableEq

/-- kombu SimpleQueue.qsize: reports the message count, raising
ChannelError when the queue does not exist on the broker. -/
def simpleQueueQsize (q : BrokerQueue) : Except Unit Nat :=
  if q.declared then .ok q.messages.length else .error ()

/-- buffer.py line 70, the overridden qsize: a ChannelError from the
underlying queue is treated as size 0. -/
def ObservabilityBuffer.qsize (_b : ObservabilityBuffer) (q : BrokerQueue) : Nat :=
  match simpleQueueQsize q with
  | .ok n => n
  | .error _ => 0

/-- buffer.py line 80, size_in_batches: math.ceil(qsize / batch),
modeled as the exact rational ceiling (the float quotient is exact at
queue-depth magnitudes).  Python raises ZeroDivisionError when batch
is 0; the claims concern positive batch sizes only. -/
def ObservabilityBuffer.size_in_batches (b : ObservabilityBuffer)
    (q : BrokerQueue) : Nat :=
  ⌈(ObservabilityBuffer.qsize b q : ℚ) / (b.batch : ℚ)⌉₊

/-- buffer.py line 83, put_event: reject with
FullObservabilityEventsBuffer (which carries the event type) when
len(self), the overridden qsize, has reached max_length; otherwise the
kombu put appends the payload to the broker queue. -/
def ObservabilityBuffer.put_event (b : ObservabilityBuffer) (q : BrokerQueue)
    (json_payload : PyStr) : Except PyStr BrokerQueue :=
  if b.max_length ≤ ObservabilityBuffer.qsize b q then .error b.event_type
  else .ok { q with messages := q.messages ++ [json_payload] }

/-- Exception kinds that can surface inside the capture try blocks:
ValueError (payload too big, unsupported event type, allocation
failure), the three ObservabilityError subclasses (full buffer,
connection fault, kombu protocol fault), and any other Exception
subclass.  BaseException signals (for example KeyboardInterrupt) are
outside the model. -/
inductive CaptureError
  | validation
  | overflow
  | connection
  | kombu
  | other
deriving Repr, DecidableEq

/-- Membership in the first except clause, (ValueError,
ObservabilityError). -/
def isValueErrorOrObservabilityError : CaptureError → Bool
  | .other => false
  | _ => true

/-- Membership in the second except clause, Exception: every modeled
error kind is an Exception subclass. -/
def isExceptionClass : CaptureError → Bool := fun _ => true

/-- Outcome of one capture entry point invocation. -/
inductive CaptureOutcome
  | skipped
  | enqueued
  | loggedInfo (e : CaptureError)
  | loggedWarn (e : CaptureError)
deriving Repr, DecidableEq

/-- The try/except ladder shared by the two capture entry points
(buffer.py lines 145..153 and 175..186): the first clause logs at info
level, the second at warning level; an error matched by neither clause
would propagate to the caller. -/
def runCaptureHandlers (r : Except CaptureError CaptureOutcome) :
    Except CaptureError CaptureOutcome :=
  match r with
  | .ok o => .ok o
  | .error e =>
    if isValueErrorOrObservabilityError e then .ok (.loggedInfo e)
    else if isExceptionClass e then .ok (.loggedWarn e)
    else .error e

/-- The try block body: build the payload, then enqueue it. -/
def captureBody (gen : Except CaptureError PyStr)
    (put : PyStr → Except CaptureError Unit) :
    Except CaptureError CaptureOutcome :=
  match gen with
  | .error e => .error e
  | .ok ev =>
    match put ev with
    | .error e => .error e
    | .ok _ => .ok .enqueued

/-- buffer.py line 156, observability_api_call: skip when the feature
is off, when request or response is missing, when only non-app traffic
is reported and the request comes from an app, or when no webhook
subscribes to the event type; otherwise run the guarded build-and-put
body.  Payload construction and enqueue outcomes enter as gen and
put. -/
def observability_api_call
    (active report_all has_request has_response request_has_app
      webhooks_exist : Bool)
    (gen : Except CaptureError PyStr)
    (put : PyStr → Except CaptureError Unit) :
    Except CaptureError CaptureOutcome :=
  if !active then .ok .skipped
  else if !has_request || !has_response then .ok .skipped
  else if !report_all && request_has_app then .ok .skipped
  else if !webhooks_exist then .ok .skipped
  else runCaptureHandlers (captureBody gen put)

/-- buffer.py line 129, observability_event_delivery_attempt: skip for
observability event types themselves and when no webhook subscribes;
otherwise run the guarded build-and-put body. -/
def observability_event_delivery_attempt
    (is_observability_event webhooks_exist : Bool)
    (gen : Except CaptureError PyStr)
    (put : PyStr → Except CaptureError Unit) :
    Except CaptureError CaptureOutcome :=
  if is_observability_event then .ok .skipped
  else if !webhooks_exist then .ok .skipped
  else runCaptureHandlers (captureBody gen put)

lemma runCaptureHandlers_isOk (r : Except CaptureError CaptureOutcome) :
    (runCaptureHandlers r).isOk = true := by
  unfold runCaptureHandlers
  match r with
  | .ok o => rfl
  | .error e => cases e <;> rfl

/-- C7: put_event on a buffer whose current depth has reached
max_length fails with the overflow error carrying the event type and
enqueues nothing: no updated queue is produced on this path. -/
theorem put_event_overflow (b : ObservabilityBuffer) (q : BrokerQueue)
    (p : PyStr) (h : b.max_length ≤ ObservabilityBuffer.qsize b q) :
    ObservabilityBuffer.put_event b q p = .error b.event_type ∧
    ∀ q2, ObservabilityBuffer.put_event b q p ≠ .ok q2 := by
  unfold ObservabilityBuffer.put_event
  rw [if_pos h]
  exact ⟨rfl, fun q2 hq => Except.noConfusion hq⟩

/-- Witness for C7 at a concrete input: a buffer of capacity 2 over a
declared queue already holding two messages rejects a third put. -/
theorem put_event_overflow_witness :
    ObservabilityBuffer.put_event ⟨"t".toList, 10, 2⟩
      ⟨true, [[], []]⟩ "x".toList = .error "t".toList :=
  (put_event_overflow ⟨"t".toList, 10, 2⟩ ⟨true, [[], []]⟩ "x".toList
    (by decide)).1

/-- C8: every error raised during payload construction or enqueue in
the two capture entry points (overflow, connection fault, protocol
fault, validation error, allocation error, or any other exception) is
caught by the except ladder and reduced to a log entry; the entry
points never return an error to their caller, so the unit of work that
triggered them completes normally. -/
theorem capture_entry_points_never_propagate :
    (∀ (active report_all has_request has_response request_has_app
          webhooks_exist : Bool)
        (gen : Except CaptureError PyStr)
        (put : PyStr → Except CaptureError Unit),
        (observability_api_call active report_all has_request has_response
          request_has_app webhooks_exist gen put).isOk = true) ∧
    (∀ (is_observability_event webhooks_exist : Bool)
        (gen : Except CaptureError PyStr)
        (put : PyStr → Except CaptureError Unit),
        (observability_event_delivery_attempt is_observability_event
          webhooks_exist gen put).isOk = true) := by
  constructor
  · intro active report_all has_request has_response request_has_app
      webhooks_exist gen put
    unfold observability_api_call
    split
    · rfl
    split
    · rfl
    split
    · rfl
    split
    · rfl
    exact runCaptureHandlers_isOk _
  · intro is_observability_event webhooks_exist gen put
    unfold observability_event_delivery_attempt
    split
    · rfl
    split
    · rfl
    exact runCaptureHandlers_isOk _

/-- C9: qsize reports 0 instead of raising when the queue does not
exist yet, and size_in_batches is the ceiling of depth over batch
size: the depth fits in that many batches and in no fewer; a queue of
25 messages with batch size 10 yields 3. -/
theorem qsize_missing_and_size_in_batches :
    (∀ (b : ObservabilityBuffer) (q : BrokerQueue),
        simpleQueueQsize q = .error () → ObservabilityBuffer.qsize b q = 0) ∧
    (∀ (b : ObservabilityBuffer) (q : BrokerQueue), 0 < b.batch →
        ObservabilityBuffer.qsize b q ≤
          b.batch * ObservabilityBuffer.size_in_batches b q ∧
        ∀ m, ObservabilityBuffer.qsize b q ≤ b.batch * m →
          ObservabilityBuffer.size_in_batches b q ≤ m) ∧
    ObservabilityBuffer.size_in_batches ⟨[], 10, 100⟩
      ⟨true, List.replicate 25 []⟩ = 3 := by
  refine ⟨?_, ?_, ?_⟩
  · intro b q h
    unfold ObservabilityBuffer.qsize
    rw [h]
  · intro b q hb
    have hbq : (0 : ℚ) < (b.batch : ℚ) := by positivity
    constructor
    · have hle := Nat.le_ceil
        ((ObservabilityBuffer.qsize b q : ℚ) / (b.batch : ℚ))
      rw [div_le_iff₀ hbq] at hle
      unfold ObservabilityBuffer.size_in_batches
      have : (ObservabilityBuffer.qsize b q : ℚ) ≤
          ((b.batch * ⌈(ObservabilityBuffer.qsize b q : ℚ) / (b.batch : ℚ)⌉₊ : ℕ) : ℚ) := by
        push_cast
        linarith
      exact_mod_cast this
    · intro m hm
      unfold ObservabilityBuffer.size_in_batches
      refine Nat.ceil_le.mpr ?_
      rw [div_le_iff₀ hbq]
      have : ((ObservabilityBuffer.qsize b q : ℕ) : ℚ) ≤ ((b.batch * m : ℕ) : ℚ) := by
        exact_mod_cast hm
      push_cast at this
      linarith
  · have h25 : ObservabilityBuffer.qsize ⟨[], 10, 100⟩
        ⟨true, List.replicate 25 []⟩ = 25 := rfl
    unfold ObservabilityBuffer.size_in_batches
    rw [h25]
    rw [Nat.ceil_eq_iff (by norm_num)]
    constructor <;> norm_num

/-- Witness for C9 at concrete inputs: an undeclared queue reports
depth 0, and 25 messages over batch 10 need no more than 3 batches. -/
theorem qsize_missing_and_size_in_batches_witness :
    ObservabilityBuffer.qsize ⟨[], 10, 100⟩ ⟨false, []⟩ = 0 ∧
    ObservabilityBuffer.qsize ⟨[], 10, 100⟩ ⟨true, List.replicate 25 []⟩ ≤
      10 * ObservabilityBuffer.size_in_batches ⟨[], 10, 100⟩
        ⟨true, List.replicate 25 []⟩ :=
  ⟨qsize_missing_and_size_in_batches.1 ⟨[], 10, 100⟩ ⟨false, []⟩ rfl,
   (qsize_missing_and_size_in_batches.2.1 ⟨[], 10, 100⟩
      ⟨true, List.replicate 25 []⟩ (by decide)).1⟩
